import Mathlib

/-!
Verification development for the PNR text-extraction and schedule-change
engine of `streamlit_cloud_apps/agent_support_router.py`.

The Python engine is shallowly embedded: every regular expression of the
source is transcribed as an executable character-list matcher with the same
greedy/lazy and boundary semantics, `datetime` is modelled by an explicit
record with proleptic-Gregorian ordinal arithmetic, and the ambient
wall-clock read (`datetime.now()`) becomes an explicit `now` argument of the
orchestrator.  The single statement of the orchestrator that can raise in
Python (`issued_dt.replace(year=issued_dt.year+1)`, a `ValueError` on
out-of-range dates) is modelled by an `Except` result.
-/

namespace AgentSupportRouter

/-! ## Character utilities (ASCII, as used by the source's regexes) -/

/-- Python `str.upper()` on ASCII characters. -/
def pyToUpper (c : Char) : Char :=
  if 'a' ≤ c ∧ c ≤ 'z' then Char.ofNat (c.toNat - 32) else c

/-- Upper-case a character list. -/
def upChars (l : List Char) : List Char := l.map pyToUpper

/-- Python `str.upper()` on strings. -/
def pyUpper (s : String) : String := ⟨upChars s.data⟩

/-- Python regex `\s` (ASCII whitespace). -/
def isWs (c : Char) : Bool :=
  c = ' ' ∨ c = '\t' ∨ c = '\n' ∨ c = '\r' ∨ c = Char.ofNat 11 ∨ c = Char.ofNat 12

/-- Regex `\d`. -/
def isDigitC (c : Char) : Bool := '0' ≤ c ∧ c ≤ '9'

/-- ASCII upper-case letter. -/
def isUpperC (c : Char) : Bool := 'A' ≤ c ∧ c ≤ 'Z'

/-- ASCII lower-case letter. -/
def isLowerC (c : Char) : Bool := 'a' ≤ c ∧ c ≤ 'z'

/-- ASCII letter; the class `[A-Z]` under `re.IGNORECASE`. -/
def isAlphaC (c : Char) : Bool := isUpperC c || isLowerC c

/-- The class `[A-Z0-9]` under `re.IGNORECASE`. -/
def isAlnumCI (c : Char) : Bool := isAlphaC c || isDigitC c

/-- The class `[A-Z0-9]` without `re.IGNORECASE` (used on pre-uppercased text). -/
def isAlnumUC (c : Char) : Bool := isUpperC c || isDigitC c

/-- Regex `\w` (word character). -/
def isWordC (c : Char) : Bool := isAlphaC c || isDigitC c || c = '_'

/-- Numeric value of a decimal digit character. -/
def dval (c : Char) : Nat := c.toNat - 48

/-- Value of a digit string, most significant first (Python `int`). -/
def natOfDigits (l : List Char) : Nat := l.foldl (fun a c => a * 10 + dval c) 0

/-- Python `str.strip()`. -/
def pyStrip (l : List Char) : List Char :=
  ((l.dropWhile isWs).reverse.dropWhile isWs).reverse

/-! ## Generic scanning machinery

A matcher takes the character just before the current position (`none` at
text start; needed for `\b` and for the `re.MULTILINE` `^` anchor) and the
remaining characters, and yields a capture plus the rest of the input.
`scanFirst` models `re.search`, `scanAll` models `re.findall`
(non-overlapping, advancing one character after a failed attempt). -/

/-- `re.search`: first match over all start positions. -/
def scanFirst (p : Option Char → List Char → Option α) :
    Option Char → List Char → Option α
  | prev, [] => p prev []
  | prev, c :: cs =>
    match p prev (c :: cs) with
    | some a => some a
    | none => scanFirst p (some c) cs

/-- `re.findall`: all non-overlapping matches, fuelled by input length. -/
def scanAll (p : Option Char → List Char → Option (α × List Char)) :
    Nat → Option Char → List Char → List α
  | 0, _, _ => []
  | _ + 1, prev, [] =>
    match p prev [] with
    | some (a, _) => [a]
    | none => []
  | fuel + 1, prev, c :: cs =>
    match p prev (c :: cs) with
    | some (a, rest) =>
      let consumed := (c :: cs).length - rest.length
      if consumed = 0 then a :: scanAll p fuel (some c) cs
      else a :: scanAll p fuel ((c :: cs).get? (consumed - 1)) rest
    | none => scanAll p fuel (some c) cs

/-- Run `re.findall` over a whole text. -/
def findAll (p : Option Char → List Char → Option (α × List Char)) (l : List Char) :
    List α :=
  scanAll p (l.length + 1) none l

/-- `\b` at the current position, looking at the preceding character. -/
def bdryBefore (prev : Option Char) : Bool :=
  match prev with
  | none => true
  | some c => !(isWordC c)

/-- `\b` after a match: next character is absent or not a word character. -/
def bdryAfter (rest : List Char) : Bool :=
  match rest with
  | [] => true
  | c :: _ => !(isWordC c)

/-- `re.MULTILINE` `^`: text start or just after a newline. -/
def atLineStart (prev : Option Char) : Bool :=
  prev = none || prev = some '\n'

/-! ## Small matcher combinators -/

/-- Consume a literal, case-insensitively; returns the original consumed
characters and the rest. -/
def eatLitCI : List Char → List Char → Option (List Char × List Char)
  | [], l => some ([], l)
  | _ :: _, [] => none
  | p :: ps, c :: cs =>
    if pyToUpper p = pyToUpper c then
      (eatLitCI ps cs).map (fun (a, r) => (c :: a, r))
    else none

/-- Consume exactly `n` characters of a class. -/
def eatCount (q : Char → Bool) (n : Nat) (l : List Char) :
    Option (List Char × List Char) :=
  let pre := l.take n
  if pre.length = n ∧ pre.all q then some (pre, l.drop n) else none

/-- Greedy run of a class (possibly empty): regex `q*`. -/
def eatRun (q : Char → Bool) (l : List Char) : List Char × List Char :=
  (l.takeWhile q, l.dropWhile q)

/-- Regex `\s+`: at least one whitespace character. -/
def ws1 (l : List Char) : Option (List Char) :=
  let r := l.dropWhile isWs
  if r.length = l.length then none else some r

/-- Regex `\s*`. -/
def ws0 (l : List Char) : List Char := l.dropWhile isWs

/-! ## Time-token normalizers (`_time_token_to_minutes`, `_to_minutes_any`) -/

/-- The 12-hour grammar of `_to_minutes_any`: regex `(\d{3,4})([AP])$`
(on the stripped, upper-cased token).  Returns the digit group and the
A/P marker.  With three-or-four digits required and `$`-anchoring, the
digit group has to be the entire leading digit run. -/
def m12 (l : List Char) : Option (List Char × Char) :=
  let (d, r) := eatRun isDigitC l
  if d.length = 3 ∨ d.length = 4 then
    match r with
    | [ap] => if ap = 'A' ∨ ap = 'P' then some (d, ap) else none
    | _ => none
  else none

/-- The 24-hour grammar of `_to_minutes_any`: regex
`^([01]\d|2[0-3])([0-5]\d)(?:\+1)?$`.  Returns (hour, minute).  On digit
characters the class alternation `[01]\d|2[0-3]` accepts exactly the hours
0–23 and `[0-5]\d` exactly the minutes 0–59, which is how the condition is
written here. -/
def m24 (l : List Char) : Option (Nat × Nat) :=
  match l with
  | c0 :: c1 :: c2 :: c3 :: rest =>
    let h := dval c0 * 10 + dval c1
    let mm := dval c2 * 10 + dval c3
    if ([c0, c1, c2, c3].all isDigitC ∧ h ≤ 23 ∧ mm ≤ 59) ∧
        (rest = [] ∨ rest = ['+', '1']) then
      some (h, mm)
    else none
  | _ => none

/-- 12-hour AM/PM hour adjustment shared by both normalizers:
`if ap == "P" and hh != 12: hh += 12; if ap == "A" and hh == 12: hh = 0`. -/
def apAdjust (hh : Nat) (ap : Char) : Nat :=
  let hh := if ap = 'P' ∧ hh ≠ 12 then hh + 12 else hh
  if ap = 'A' ∧ hh = 12 then 0 else hh

/-- Source `_to_minutes_any`: the token is stripped and upper-cased, the
12-hour grammar is tried first, then the 24-hour grammar; `None` when
neither matches. -/
def _to_minutes_any (tok : String) : Option Nat :=
  match m12 (upChars (pyStrip tok.data)) with
  | some (d, ap) =>
    some (apAdjust (natOfDigits (d.take (d.length - 2))) ap * 60 +
      natOfDigits (d.drop (d.length - 2)))
  | none =>
    match m24 (upChars (pyStrip tok.data)) with
    | some (h, m) => some (h * 60 + m)
    | none => none

/-- The grammar of `_time_token_to_minutes`: `re.match(r"(\d{1,4})([AP])", t)`,
a prefix match: one to four digits followed by A or P (anything may follow).
The greedy digit group must be the whole leading digit run, which therefore
has length 1–4. -/
def m12loose (l : List Char) : Option (List Char) :=
  let (d, r) := eatRun isDigitC l
  if 1 ≤ d.length ∧ d.length ≤ 4 then
    match r with
    | ap :: _ => if ap = 'A' ∨ ap = 'P' then some (d ++ [ap]) else none
    | [] => none
  else none

/-- Source `_time_token_to_minutes`: empty token gives `None`; otherwise the
stripped upper-cased token is matched against `(\d{1,4})([AP])`, the digits
are zero-filled to four, and hours/minutes read off. -/
def _time_token_to_minutes (tok : String) : Option Nat :=
  if tok.data = [] then none
  else
    let t := upChars (pyStrip tok.data)
    match m12loose t with
    | none => none
    | some raw =>
      let ap := raw.getLast?.getD 'A'
      let d := raw.dropLast
      let padded := List.replicate (4 - d.length) '0' ++ d
      let hh := natOfDigits (padded.take 2)
      let mm := natOfDigits (padded.drop 2)
      some (apAdjust hh ap * 60 + mm)

-- Source `_minutes_to_hm` is presentation-only and not modelled.

/-! ## Dates (`datetime` model) -/

/-- `MONTH_MAP`. -/
def monthNum (mon : List Char) : Option Nat :=
  if mon = "JAN".data then some 1 else if mon = "FEB".data then some 2
  else if mon = "MAR".data then some 3 else if mon = "APR".data then some 4
  else if mon = "MAY".data then some 5 else if mon = "JUN".data then some 6
  else if mon = "JUL".data then some 7 else if mon = "AUG".data then some 8
  else if mon = "SEP".data then some 9 else if mon = "OCT".data then some 10
  else if mon = "NOV".data then some 11 else if mon = "DEC".data then some 12
  else none

/-- Gregorian leap year, as Python's `calendar`/`datetime` use. -/
def isLeap (y : Nat) : Bool := (y % 4 = 0 ∧ y % 100 ≠ 0) ∨ y % 400 = 0

/-- Days in a month. -/
def daysInMonth (y m : Nat) : Nat :=
  if m = 2 then (if isLeap y then 29 else 28)
  else if m = 4 ∨ m = 6 ∨ m = 9 ∨ m = 11 then 30
  else 31

/-- Days before the first of month `m` in year `y`. -/
def daysBeforeMonth (y m : Nat) : Nat :=
  let base :=
    if m = 1 then 0 else if m = 2 then 31 else if m = 3 then 59
    else if m = 4 then 90 else if m = 5 then 120 else if m = 6 then 151
    else if m = 7 then 181 else if m = 8 then 212 else if m = 9 then 243
    else if m = 10 then 273 else if m = 11 then 304 else 334
  if 3 ≤ m ∧ isLeap y then base + 1 else base

/-- Model of Python `datetime` (microseconds dropped; all parse-relevant
arithmetic is at second granularity or coarser). -/
structure PyDateTime where
  year : Nat
  month : Nat
  day : Nat
  hour : Nat := 0
  minute : Nat := 0
  second : Nat := 0
  deriving DecidableEq, Repr

/-- `datetime(y, m, d)` validity: Python raises `ValueError` outside these
bounds (`MINYEAR = 1`, `MAXYEAR = 9999`). -/
def dateValid (y m d : Nat) : Bool :=
  1 ≤ y ∧ y ≤ 9999 ∧ 1 ≤ m ∧ m ≤ 12 ∧ 1 ≤ d ∧ d ≤ daysInMonth y m

/-- Python `datetime.toordinal()` (proleptic Gregorian; 0001-01-01 ↦ 1). -/
def toOrdinal (dt : PyDateTime) : Nat :=
  let y := dt.year - 1
  y * 365 + y / 4 - y / 100 + y / 400 + daysBeforeMonth dt.year dt.month + dt.day

/-- Total seconds since the proleptic epoch. -/
def totalSeconds (dt : PyDateTime) : Int :=
  (toOrdinal dt : Int) * 86400 + dt.hour * 3600 + dt.minute * 60 + dt.second

/-- `(a - b).days` for datetimes: `timedelta` stores a floored day count. -/
def diffDays (a b : PyDateTime) : Int :=
  Int.fdiv (totalSeconds a - totalSeconds b) 86400

/-- `dt.replace(year := y)`: validates the new date, `ValueError` (here
`none`) when it does not exist (e.g. Feb 29 in a non-leap year, or a year
outside 1–9999). -/
def replaceYear (dt : PyDateTime) (y : Nat) : Option PyDateTime :=
  if dateValid y dt.month dt.day then
    some { dt with year := y }
  else none

/-- Left-pad a number to two digits. -/
def pad2 (n : Nat) : String := if n < 10 then "0" ++ toString n else toString n

/-- Left-pad a number to four digits. -/
def pad4 (n : Nat) : String :=
  if n < 10 then "000" ++ toString n
  else if n < 100 then "00" ++ toString n
  else if n < 1000 then "0" ++ toString n
  else toString n

/-- `dt.strftime("%Y-%m-%d")`. -/
def isoDate (dt : PyDateTime) : String :=
  pad4 dt.year ++ "-" ++ pad2 dt.month ++ "-" ++ pad2 dt.day

/-- Source `_parse_issued_date_token`: strip/upper, match
`(\d{1,2})([A-Z]{3})(\d{2,4})$`, two-digit years get `2000 +`, and the
`datetime` constructor's `ValueError`/`KeyError` is caught to `None`. -/
def _parse_issued_date_token (tok : String) : Option PyDateTime :=
  let t := upChars (pyStrip tok.data)
  let (d, r1) := eatRun isDigitC t
  if d.length = 1 ∨ d.length = 2 then
    match eatCount isUpperC 3 r1 with
    | none => none
    | some (mon, r2) =>
      let (ys, r3) := eatRun isDigitC r2
      if (2 ≤ ys.length ∧ ys.length ≤ 4) ∧ r3 = [] then
        let year := if ys.length = 4 then natOfDigits ys else 2000 + natOfDigits ys
        match monthNum mon with
        | none => none
        | some m =>
          if dateValid year m (natOfDigits d) then
            some { year := year, month := m, day := natOfDigits d }
          else none
      else none
  else none

/-! ## Shared sub-matchers for the segment line grammars -/

/-- Greedy run of at least one class character: regex `q+`. -/
def run1 (q : Char → Bool) (l : List Char) : Option (List Char × List Char) :=
  let (a, r) := eatRun q l
  if a.isEmpty then none else some (a, r)

/-- `(\d{1,2}[A-Z]{3})` (with `re.I`): the greedy digit group followed by
three letters forces the leading digit run to have length 1 or 2. -/
def dtok (l : List Char) : Option (List Char × List Char) := do
  let (d, r) := eatRun isDigitC l
  if d.length = 1 ∨ d.length = 2 then
    let (a, r2) ← eatCount isAlphaC 3 r
    pure (d ++ a, r2)
  else none

/-- `(\d{3,4}[AP])` (with `re.I`): since extra digits cannot be given back
to `[AP]`, the digit run must have length exactly 3 or 4. -/
def t12 (l : List Char) : Option (List Char × List Char) := do
  let (d, r) := eatRun isDigitC l
  if d.length = 3 ∨ d.length = 4 then
    match r with
    | c :: r2 =>
      if pyToUpper c = 'A' ∨ pyToUpper c = 'P' then some (d ++ [c], r2) else none
    | [] => none
  else none

/-- `(\d{4}(?:\+1)?)`: exactly four digits, then a literal `+1` is consumed
greedily when present. -/
def t24 (l : List Char) : Option (List Char × List Char) := do
  let (d, r) ← eatCount isDigitC 4 l
  match r with
  | '+' :: '1' :: r2 => some (d ++ ['+', '1'], r2)
  | _ => some (d, r)

/-- `([A-Z]{2}\d?)` followed by `\s+` in the 24-hour row grammar: two
letters and a greedily taken optional digit. -/
def stat24 (l : List Char) : Option (List Char × List Char) := do
  let (a, r) ← eatCount isAlphaC 2 l
  match r with
  | c :: r2 => if isDigitC c then some (a ++ [c], r2) else some (a, r)
  | [] => some (a, r)

/-- `([A-Z/]{2,6}\d?)` (with `re.I`): a run of letters and slashes (which,
being followed by `\s+`/a time token in every use, must be the whole run,
of length 2–6), then a greedily taken optional digit. -/
def stat12 (l : List Char) : Option (List Char × List Char) := do
  let (a, r) := eatRun (fun c => isAlphaC c || c = '/') l
  if 2 ≤ a.length ∧ a.length ≤ 6 then
    match r with
    | c :: r2 => if isDigitC c then some (a ++ [c], r2) else some (a, r)
    | [] => some (a, r)
  else none

/-- `\s+[A-Z]?\s+` between flight number and date in the generic grammars:
either whitespace, one letter, whitespace — or at least two whitespace
characters with the optional letter empty. -/
def legGap (l : List Char) : Option (List Char) :=
  let (w, r) := eatRun isWs l
  if w.isEmpty then none
  else
    match r with
    | c :: r2 =>
      if isAlphaC c then
        let (w2, r3) := eatRun isWs r2
        if w2.isEmpty then (if 2 ≤ w.length then some r else none)
        else some r3
      else if 2 ≤ w.length then some r else none
    | [] => if 2 ≤ w.length then some [] else none

/-- Raw captures of one segment row (original text; upper-cased later, as
the source upper-cases each captured group). -/
structure Row8 where
  car : List Char
  flt : List Char
  date : List Char
  orig : List Char
  dest : List Char
  stat : List Char
  dep : List Char
  arr : List Char

/-- `([A-Z0-9]{2})\s+([A-Z0-9]+)`: carrier and flight number. -/
def carFlt (l : List Char) : Option ((List Char × List Char) × List Char) := do
  let (car, l) ← eatCount isAlnumCI 2 l
  let l ← ws1 l
  let (flt, l) ← run1 isAlnumCI l
  pure ((car, flt), l)

/-- `(\d{1,2}[A-Z]{3})\s+([A-Z]{3})\s*([A-Z]{3})`: date, origin,
destination of the generic grammars (optional gap between the airports). -/
def dateRoute (l : List Char) :
    Option ((List Char × List Char × List Char) × List Char) := do
  let (dt, l) ← dtok l
  let l ← ws1 l
  let (o, l) ← eatCount isAlphaC 3 l
  let l := ws0 l
  let (d, l) ← eatCount isAlphaC 3 l
  pure ((dt, o, d), l)

/-- `(\d{1,2}[A-Z]{3})\s+([A-Z]{3})([A-Z]{3})`: date and concatenated
origin/destination of the Sabre grammars. -/
def dateRouteSabre (l : List Char) :
    Option ((List Char × List Char × List Char) × List Char) := do
  let (dt, l) ← dtok l
  let l ← ws1 l
  let (o, l) ← eatCount isAlphaC 3 l
  let (d, l) ← eatCount isAlphaC 3 l
  pure ((dt, o, d), l)

/-- `([A-Z]{2}\d?)\s+(\d{4}(?:\+1)?)\s+(\d{4}(?:\+1)?)`: status and the
two 24-hour time tokens. -/
def tail24 (l : List Char) :
    Option ((List Char × List Char × List Char) × List Char) := do
  let (st, l) ← stat24 l
  let l ← ws1 l
  let (dep, l) ← t24 l
  let l ← ws1 l
  let (arr, l) ← t24 l
  pure ((st, dep, arr), l)

/-- `([A-Z/]{2,6}\d?)\s+(\d{3,4}[AP])\s+(\d{3,4}[AP])`: status and the
two 12-hour time tokens. -/
def tail12 (l : List Char) :
    Option ((List Char × List Char × List Char) × List Char) := do
  let (st, l) ← stat12 l
  let l ← ws1 l
  let (dep, l) ← t12 l
  let l ← ws1 l
  let (arr, l) ← t12 l
  pure ((st, dep, arr), l)

/-- `SEG_ROW_24H` body (tried at a line start). -/
def row24At (l : List Char) : Option (Row8 × List Char) := do
  let l := ws0 l
  let (ds, l) := eatRun isDigitC l
  if ds.isEmpty then none
  else do
    let l ← ws1 l
    let (cf, l) ← carFlt l
    let l ← legGap l
    let (dod, l) ← dateRoute l
    let l ← ws1 l
    let (sda, l) ← tail24 l
    pure (⟨cf.1, cf.2, dod.1, dod.2.1, dod.2.2, sda.1, sda.2.1, sda.2.2⟩, l)

/-- `SEG_ROW_12H` body.  Its `(?:\d+|0?\d)` row number is equivalent to
`\d+` (the second alternative only matches digit strings the first already
tries). -/
def row12At (l : List Char) : Option (Row8 × List Char) := do
  let l := ws0 l
  let (ds, l) := eatRun isDigitC l
  if ds.isEmpty then none
  else do
    let l ← ws1 l
    let (cf, l) ← carFlt l
    let l ← legGap l
    let (dod, l) ← dateRoute l
    let l ← ws1 l
    let (sda, l) ← tail12 l
    pure (⟨cf.1, cf.2, dod.1, dod.2.1, dod.2.2, sda.1, sda.2.1, sda.2.2⟩, l)

/-- `^(?:\s*\d+|AS)` of the Sabre row grammar: optional whitespace and a
row number, or the literal `AS` at the anchor itself. -/
def sabreStart (l : List Char) : Option (List Char) :=
  let l1 := ws0 l
  let (ds, r) := eatRun isDigitC l1
  if ds.isEmpty then (eatLitCI "AS".data l).map (·.2) else some r

/-- The Sabre row grammar of `extract_sabre_segments`: origin/destination
concatenated and no optional leg letter. -/
def rowSabreAt (l : List Char) : Option (Row8 × List Char) := do
  let l ← sabreStart l
  let l ← ws1 l
  let (cf, l) ← carFlt l
  let l ← ws1 l
  let (dod, l) ← dateRouteSabre l
  let l ← ws1 l
  let (sda, l) ← tail12 l
  pure (⟨cf.1, cf.2, dod.1, dod.2.1, dod.2.2, sda.1, sda.2.1, sda.2.2⟩, l)

/-- Captures of the Sabre `SC` summary line (its status field is a
non-capturing group in the source pattern, so the status capture of
`tail12` is simply dropped). -/
structure ScCap where
  car : List Char
  flt : List Char
  date : List Char
  orig : List Char
  dest : List Char
  dep : List Char
  arr : List Char

/-- The Sabre `SC` summary-line pattern of `extract_sabre_schedule_change`. -/
def scLineAt (l : List Char) : Option (ScCap × List Char) := do
  let l := ws0 l
  let (_, l) ← eatLitCI "SC".data l
  let l ← ws1 l
  let (cf, l) ← carFlt l
  let l ← ws1 l
  let (dod, l) ← dateRouteSabre l
  let l ← ws1 l
  let (sda, l) ← tail12 l
  pure (⟨cf.1, cf.2, dod.1, dod.2.1, dod.2.2, sda.2.1, sda.2.2⟩, l)

/-! ## Substring and signature matchers -/

/-- Does `needle` start `l`? -/
def startsWithCh : List Char → List Char → Bool
  | [], _ => true
  | _ :: _, [] => false
  | p :: ps, c :: cs => p = c && startsWithCh ps cs

/-- Python `needle in hay`. -/
def containsSub (needle : List Char) : List Char → Bool
  | [] => startsWithCh needle []
  | l@(_ :: cs) => startsWithCh needle l || containsSub needle cs

/-- The `/DC[A-Z0-9]{2,3}\*[A-Z0-9]{4,12}/E` waiver pattern.  Both
bounded groups are followed by characters outside the class, so each must
be an entire alphanumeric run.  Case-insensitive; on pre-uppercased text
this coincides with the case-sensitive variants of the source. -/
def sigDcAt (l : List Char) : Option (List Char × List Char) := do
  let (a1, l) ← eatLitCI "/DC".data l
  let (g1, l) := eatRun isAlnumCI l
  if 2 ≤ g1.length ∧ g1.length ≤ 3 then
    match l with
    | '*' :: l => do
      let (g2, l) := eatRun isAlnumCI l
      if 4 ≤ g2.length ∧ g2.length ≤ 12 then do
        let (a2, l) ← eatLitCI "/E".data l
        pure (a1 ++ g1 ++ '*' :: g2 ++ a2, l)
      else none
    | _ => none
  else none

/-- Lazy `[^\n]*?` up to a literal: the shortest same-line gap after which
the literal matches. -/
def lazyGapLit (pat : List Char) : List Char → Option (List Char × List Char)
  | [] => (eatLitCI pat []).map (fun (a, r) => (a, r))
  | c :: cs =>
    match eatLitCI pat (c :: cs) with
    | some (a, r) => some (a, r)
    | none =>
      if c = '\n' then none
      else (lazyGapLit pat cs).map (fun (a, r) => (c :: a, r))

/-- Lazy `[^\n]*?` up to a greedy `[A-Z0-9]{3,}` run: the shortest
same-line gap after which at least three alphanumerics follow; the full
run is then consumed. -/
def lazyGapAlnum3 : List Char → Option (List Char × List Char)
  | [] => none
  | c :: cs =>
    let (run, r) := eatRun isAlnumCI (c :: cs)
    if 3 ≤ run.length then some (run, r)
    else if c = '\n' then none
    else (lazyGapAlnum3 cs).map (fun (a, r) => (c :: a, r))

/-- The Amadeus `(?:NONEND[^\n]*?WAIVER[^\n]*?[A-Z0-9]{3,})` composite. -/
def nonendAt (l : List Char) : Option (List Char × List Char) := do
  let (a1, l) ← eatLitCI "NONEND".data l
  let (a2, l) ← lazyGapLit "WAIVER".data l
  let (a3, l) ← lazyGapAlnum3 l
  pure (a1 ++ a2 ++ a3, l)

/-- `RF-[A-Z0-9]{3,12}` without word boundaries (signature extraction):
the greedy group takes up to twelve characters of the run. -/
def rfSigAt (l : List Char) : Option (List Char × List Char) := do
  let (a, l) ← eatLitCI "RF-".data l
  let (run, r) := eatRun isAlnumCI l
  if 3 ≤ run.length then some (a ++ run.take 12, run.drop 12 ++ r) else none

/-- `WAIVER[:\s]+[A-Z0-9]{3,15}` (signature extraction). -/
def waiverSigAt (l : List Char) : Option (List Char × List Char) := do
  let (a, l) ← eatLitCI "WAIVER".data l
  let (sep, l) ← run1 (fun c => c = ':' || isWs c) l
  let (run, r) := eatRun isAlnumCI l
  if 3 ≤ run.length then some (a ++ sep ++ run.take 15, run.drop 15 ++ r) else none

/-- One alternative of the `extract_status_codes` pattern consisting of a
literal and an optional trailing digit, with the trailing `\b`: the digit
is taken greedily, falling back to the digit-free form when the boundary
fails. -/
def litDigitOptBdry (pat : String) (l : List Char) :
    Option (List Char × List Char) := do
  let (a, r) ← eatLitCI pat.data l
  match r with
  | c :: r2 =>
    if isDigitC c ∧ bdryAfter r2 then some (a ++ [c], r2)
    else if bdryAfter r then some (a, r) else none
  | [] => some (a, r)

/-- The alternation of `extract_status_codes`
`\b(HK\d?|HX\d?|TK\d?|SC|HS\/HK\d?|HK\/HX\d?|NN\/\w+|SS\d?)\b`, tried in
source order at a word boundary. -/
def statusAltAt (prev : Option Char) (l : List Char) :
    Option (List Char × List Char) :=
  if !bdryBefore prev then none
  else
    (litDigitOptBdry "HK" l).orElse fun _ =>
    (litDigitOptBdry "HX" l).orElse fun _ =>
    (litDigitOptBdry "TK" l).orElse fun _ =>
    ((eatLitCI "SC".data l).bind fun (a, r) =>
      if bdryAfter r then some (a, r) else none).orElse fun _ =>
    (litDigitOptBdry "HS/HK" l).orElse fun _ =>
    (litDigitOptBdry "HK/HX" l).orElse fun _ =>
    ((eatLitCI "NN/".data l).bind fun (a, r) =>
      (run1 isWordC r).bind fun (w, r2) =>
      if bdryAfter r2 then some (a ++ w, r2) else none).orElse fun _ =>
    litDigitOptBdry "SS" l

/-- Python's `<=` on strings: code-point lexicographic order on the
character lists. -/
def pyStrLeb : List Char → List Char → Bool
  | [], _ => true
  | _ :: _, [] => false
  | a :: as, b :: bs => if a = b then pyStrLeb as bs else decide (a < b)

/-- `sorted(set(xs))` on Python strings: deduplicate, then sort by the
code-point lexicographic order. -/
def pySortedSet (xs : List String) : List String :=
  List.insertionSort (fun a b => pyStrLeb a.data b.data = true) xs.dedup

/-- Source `extract_status_codes`. -/
def extract_status_codes (text : String) : List String :=
  pySortedSet ((findAll statusAltAt text.data).map (fun cs => (⟨cs⟩ : String)))

/-- Source `extract_common_signatures`: four independent `findall` passes,
concatenated, then `sorted(set(...))`. -/
def extract_common_signatures (text : String) : List String :=
  let t := text.data
  let sigs :=
    findAll (fun _ l => sigDcAt l) t ++
    findAll (fun _ l => nonendAt l) t ++
    findAll (fun _ l => rfSigAt l) t ++
    findAll (fun _ l => waiverSigAt l) t
  pySortedSet (sigs.map (fun cs => (⟨cs⟩ : String)))

/-- `RE_REASON_CODES`: `\bRF-[A-Z0-9]{3,12}\b` at a word boundary; the
greedy bounded group must exhaust the alphanumeric run for the trailing
boundary to hold. -/
def reasonAt (prev : Option Char) (l : List Char) :
    Option (List Char × List Char) :=
  if !bdryBefore prev then none
  else
    (eatLitCI "RF-".data l).bind fun (a, l) =>
    let (run, r) := eatRun isAlnumCI l
    if (3 ≤ run.length ∧ run.length ≤ 12) ∧ bdryAfter r then
      some (a ++ run, r)
    else none

/-- Source `extract_reason_codes`. -/
def extract_reason_codes (text : String) : List String :=
  pySortedSet ((findAll reasonAt text.data).map (fun cs => (⟨cs⟩ : String)))

/-! ## GDS dialect detection -/

/-- `RF-[A-Z0-9]{3,}` (unbounded; `detect_gds` fallback). -/
def rfLooseAt (l : List Char) : Option (List Char × List Char) :=
  (eatLitCI "RF-".data l).bind fun (a, l) =>
  let (run, r) := eatRun isAlnumCI l
  if 3 ≤ run.length then some (a ++ run, r) else none

/-- Source `detect_gds`: keyword hints on the upper-cased text in fixed
priority, then the Sabre waiver regex, then `NONEND|RF-…`. -/
def detect_gds (text : String) : String :=
  let t := upChars text.data
  if ["WETR*", "PCC:", "/DC", "PLT", "FCI"].any
      (fun h => containsSub h.data t) then "sabre"
  else if ["TST/", "FA PAX", "NONEND", "INVOL", "FE PAX"].any
      (fun h => containsSub h.data t) then "amadeus"
  else if ["WAIVER:", "ENDORSEMENT:", "WORLDSPAN", "GALILEO", "APOLLO"].any
      (fun h => containsSub h.data t) then "travelport"
  else if (scanFirst (fun _ l => sigDcAt l) none t).isSome then "sabre"
  else if containsSub "NONEND".data t ∨
      (scanFirst (fun _ l => rfLooseAt l) none t).isSome then "amadeus"
  else "unknown"

/-! ## Locator, ticket number, issue date -/

/-- `\bPNR[:\s]*([A-Z0-9]{5,6})\b`: the greedy bounded group must exhaust
the alphanumeric run, which therefore has length 5 or 6. -/
def pnrAt (prev : Option Char) (l : List Char) : Option (List Char) :=
  if !bdryBefore prev then none
  else
    (eatLitCI "PNR".data l).bind fun (_, l) =>
    let l := (eatRun (fun c => c = ':' || isWs c) l).2
    let (run, r) := eatRun isAlnumCI l
    if (5 ≤ run.length ∧ run.length ≤ 6) ∧ bdryAfter r then some run else none

/-- `\bLOCATOR[:\s-]*([A-Z0-9]{6})\b`. -/
def locatorAt (prev : Option Char) (l : List Char) : Option (List Char) :=
  if !bdryBefore prev then none
  else
    (eatLitCI "LOCATOR".data l).bind fun (_, l) =>
    let l := (eatRun (fun c => c = ':' || c = '-' || isWs c) l).2
    let (run, r) := eatRun isAlnumCI l
    if run.length = 6 ∧ bdryAfter r then some run else none

/-- Source `extract_pnr_locator`: PNR form first, locator form second; the
captured group is upper-cased. -/
def extract_pnr_locator (text : String) : Option String :=
  match scanFirst pnrAt none text.data with
  | some cap => some ⟨upChars cap⟩
  | none =>
    match scanFirst locatorAt none text.data with
    | some cap => some ⟨upChars cap⟩
    | none => none

/-- `\bTKT[:\s-]*?(\d{10,14})\b`: the lazy separator run is skipped up to
the first digit; the greedy bounded group must exhaust the digit run. -/
def tktAt (prev : Option Char) (l : List Char) : Option (List Char) :=
  if !bdryBefore prev then none
  else
    (eatLitCI "TKT".data l).bind fun (_, l) =>
    let l := (eatRun (fun c => c = ':' || c = '-' || isWs c) l).2
    let (run, r) := eatRun isDigitC l
    if (10 ≤ run.length ∧ run.length ≤ 14) ∧ bdryAfter r then some run else none

/-- `\bFA\s+PAX\s+(\d{10,14})\b`. -/
def faPaxAt (prev : Option Char) (l : List Char) : Option (List Char) :=
  if !bdryBefore prev then none
  else
    (eatLitCI "FA".data l).bind fun (_, l) =>
    (ws1 l).bind fun l =>
    (eatLitCI "PAX".data l).bind fun (_, l) =>
    (ws1 l).bind fun l =>
    let (run, r) := eatRun isDigitC l
    if (10 ≤ run.length ∧ run.length ≤ 14) ∧ bdryAfter r then some run else none

/-- Source `extract_ticket_number`. -/
def extract_ticket_number (text : String) : Option String :=
  match scanFirst tktAt none text.data with
  | some cap => some ⟨cap⟩
  | none =>
    match scanFirst faPaxAt none text.data with
    | some cap => some ⟨cap⟩
    | none => none

/-- The date-token group `(\d{1,2}[A-Z]{3}\d{2,4})`: with `bounded` the
trailing boundary of the `DT` form is enforced (the year group must then
exhaust the digit run); without it the year group greedily takes up to
four digits. -/
def issuedDateGroup (bounded : Bool) (l : List Char) : Option (List Char) :=
  (dtok l).bind fun (da, l) =>
  let (run, r) := eatRun isDigitC l
  if bounded then
    if (2 ≤ run.length ∧ run.length ≤ 4) ∧ bdryAfter r then some (da ++ run)
    else none
  else
    if 2 ≤ run.length then some (da ++ run.take 4) else none

/-- `ISSUED[:\s]*(\d{1,2}[A-Z]{3}\d{2,4})` (no word boundaries). -/
def issuedAt (l : List Char) : Option (List Char) :=
  (eatLitCI "ISSUED".data l).bind fun (_, l) =>
  let l := (eatRun (fun c => c = ':' || isWs c) l).2
  issuedDateGroup false l

/-- `\bDT(\d{1,2}[A-Z]{3}\d{2,4})\b`. -/
def dtTokAt (prev : Option Char) (l : List Char) : Option (List Char) :=
  if !bdryBefore prev then none
  else
    (eatLitCI "DT".data l).bind fun (_, l) =>
    issuedDateGroup true l

/-- Source `extract_ticket_issue_date`: `ISSUED:` form first, Amadeus `DT`
form second; returns the parsed datetime (which may be `none` for an
invalid calendar date) and the upper-cased raw token. -/
def extract_ticket_issue_date (text : String) :
    Option PyDateTime × Option String :=
  let m :=
    match scanFirst (fun _ l => issuedAt l) none text.data with
    | some cap => some cap
    | none => scanFirst dtTokAt none text.data
  match m with
  | none => (none, none)
  | some cap =>
    let raw : String := ⟨upChars cap⟩
    (_parse_issued_date_token raw, some raw)

/-! ## Issue / sign-off keyword patterns -/

/-- An atom of the keyword alternations: a case-insensitive literal, an
optional whitespace character (`\s?`), or a whitespace run (`\s*`). -/
inductive RAtom where
  | lit (s : String)
  | wsOpt
  | wsStar

/-- Match a sequence of atoms, with the one-character backtrack of `\s?`. -/
def matchAtoms : List RAtom → List Char → Option (List Char)
  | [], l => some l
  | RAtom.lit s :: ps, l => (eatLitCI s.data l).bind fun (_, r) => matchAtoms ps r
  | RAtom.wsOpt :: ps, l =>
    match l with
    | c :: cs =>
      if isWs c then
        match matchAtoms ps cs with
        | some r => some r
        | none => matchAtoms ps l
      else matchAtoms ps l
    | [] => matchAtoms ps []
  | RAtom.wsStar :: ps, l => matchAtoms ps (ws0 l)

/-- Does any of the `\b(alt|…)\b` alternatives match anywhere in the text? -/
def wordAlts (alts : List (List RAtom)) (t : List Char) : Bool :=
  (scanFirst (fun prev l =>
    if bdryBefore prev ∧
        alts.any (fun a =>
          match matchAtoms a l with
          | some r => bdryAfter r
          | none => false) then some () else none) none t).isSome

/-- `ISSUE_PATTERNS`, in source declaration order, each expanded into its
word-bounded alternatives. -/
def issuePatterns : List (String × List (List RAtom)) :=
  [("schedule_change",
     [[.lit "SCHD", .wsOpt, .lit "CHG"], [.lit "SC", .wsOpt, .lit "CHG"],
      [.lit "SKCHG"], [.lit "SCHG"],
      [.lit "SCHEDULE", .wsStar, .lit "CHANGE"],
      [.lit "RETIMED"], [.lit "RETIME"], [.lit "RE-TIME"]]),
   ("cancellation",
     [[.lit "CXL"], [.lit "CANCELL"], [.lit "CANCELED"], [.lit "CANCELATION"],
      [.lit "CANCEL"], [.lit "FLT", .wsStar, .lit "CNL"], [.lit "NO-OP"]]),
   ("delay", [[.lit "DELAY"], [.lit "DLAY"], [.lit "RETARD"]]),
   ("denied_boarding",
     [[.lit "DENIED", .wsStar, .lit "BOARDING"], [.lit "OVERSALE"],
      [.lit "OVERSOLD"], [.lit "DB"], [.lit "INVOL", .wsStar, .lit "DNB"]]),
   ("misconnect", [[.lit "MISCONNECT"], [.lit "MISCONX"], [.lit "MISCNX"]]),
   ("weather", [[.lit "WEATHER"], [.lit "WX"]]),
   ("maintenance", [[.lit "MX"], [.lit "MAINTENANCE"], [.lit "MAINT"]]),
   ("atc", [[.lit "ATC"],
            [.lit "AIR", .wsStar, .lit "TRAFFIC", .wsStar, .lit "CONTROL"]]),
   ("security", [[.lit "SECURITY"], [.lit "SEC"]]),
   ("involuntary",
     [[.lit "INVOLUNTARY"], [.lit "INVOL"], [.lit "IRROPS"], [.lit "IRROP"],
      [.lit "IROP"]])]

/-- Source `detect_issue_tokens`: all matching labels (as a sorted set)
plus the first matching label in declaration order. -/
def detect_issue_tokens (text : String) : List String × Option String :=
  let hits := issuePatterns.filterMap
    (fun p => if wordAlts p.2 text.data then some p.1 else none)
  (pySortedSet hits, hits.head?)

/-- `\bWAIVER[:\s]+[A-Z0-9]{3,}\b` of `detect_airline_signoff`. -/
def waiverKwAt (prev : Option Char) (l : List Char) : Option Unit :=
  if !bdryBefore prev then none
  else
    (eatLitCI "WAIVER".data l).bind fun (_, l) =>
    (run1 (fun c => c = ':' || isWs c) l).bind fun (_, l) =>
    let (run, r) := eatRun isAlnumCI l
    if 3 ≤ run.length ∧ bdryAfter r then some () else none

/-- Source `detect_airline_signoff`: a non-empty signature set, else the
Sabre waiver pattern, else a `WAIVER: code`, else one of the generic
endorsement/authorization/approval keywords, all on the upper-cased text. -/
def detect_airline_signoff (text : String) (signatures : List String) : Bool :=
  if signatures ≠ [] then true
  else
    let t := upChars text.data
    if (scanFirst (fun _ l => sigDcAt l) none t).isSome then true
    else if (scanFirst waiverKwAt none t).isSome then true
    else wordAlts
      [[.lit "ENDORSEMENT"], [.lit "AUTHORIZATION"], [.lit "AUTH CODE"],
       [.lit "AUTH"], [.lit "APPROVAL"], [.lit "APPR"]] t

/-! ## Segments -/

/-- A flight segment.  Sabre-grammar segments carry no ordinal index
(`extract_sabre_segments` builds its dicts without an `idx` key), hence
the `Option`. -/
structure Segment where
  idx : Option Nat := none
  car : String
  flt : String
  date : String
  orig : String
  dest : String
  stat : String
  dep : String
  arr : String
  deriving DecidableEq, Repr

/-- Build a segment from row captures, upper-casing every field as the
source does. -/
def rowToSeg (i : Option Nat) (r : Row8) : Segment :=
  { idx := i, car := ⟨upChars r.car⟩, flt := ⟨upChars r.flt⟩,
    date := ⟨upChars r.date⟩, orig := ⟨upChars r.orig⟩,
    dest := ⟨upChars r.dest⟩, stat := ⟨upChars r.stat⟩,
    dep := ⟨upChars r.dep⟩, arr := ⟨upChars r.arr⟩ }

/-- Source `extract_sabre_segments`. -/
def extract_sabre_segments (text : String) : List Segment :=
  (findAll (fun prev l => if atLineStart prev then rowSabreAt l else none)
    text.data).map (rowToSeg none)

/-- All matches of the 24-hour generic row grammar. -/
def rows24 (text : String) : List Row8 :=
  findAll (fun prev l => if atLineStart prev then row24At l else none) text.data

/-- All matches of the 12-hour generic row grammar. -/
def rows12 (text : String) : List Row8 :=
  findAll (fun prev l => if atLineStart prev then row12At l else none) text.data

/-- Source `extract_generic_segments`: the 24-hour pass, then the 12-hour
pass, with one running ordinal counter — i.e. the concatenation, indexed
by position. -/
def extract_generic_segments (text : String) : List Segment :=
  (rows24 text ++ rows12 text).enum.map (fun p => rowToSeg (some p.1) p.2)

/-! ## Status classification (`CXL`, `OK`) -/

/-- Source `CXL` pattern `^(HX|UN|UC|US|NO)\d*$` with `re.I`: one of the
cancelled-class prefixes followed only by digits. -/
def CXL (s : String) : Bool :=
  match upChars s.data with
  | a :: b :: rest =>
    ([['H', 'X'], ['U', 'N'], ['U', 'C'], ['U', 'S'], ['N', 'O']].any
      (fun p => p = [a, b])) && rest.all isDigitC
  | _ => false

/-- Source `OK` pattern `^(HK|OK|HS|TKOK)\d*$` with `re.I`. -/
def OK (s : String) : Bool :=
  let u := upChars s.data
  (match u with
   | a :: b :: rest =>
     ([['H', 'K'], ['O', 'K'], ['H', 'S']].any (fun p => p = [a, b])) &&
       rest.all isDigitC
   | _ => false) ||
  (match u with
   | a :: b :: c :: d :: rest =>
     [a, b, c, d] = ['T', 'K', 'O', 'K'] && rest.all isDigitC
   | _ => false)

/-! ## Schedule-change computation -/

/-- Midnight-wrap correction: `if delta < -720: delta += 1440`. -/
def wrapDelta (d : Int) : Int := if d < -720 then d + 1440 else d

/-- `max` over the present elements of `(dep_delta, arr_delta)`
(`max([...], default=None)`). -/
def maxOpt : Option Int → Option Int → Option Int
  | some a, some b => some (max a b)
  | some a, none => some a
  | none, some b => some b
  | none, none => none

/-- One candidate cancelled×active pair of
`compute_schedule_change_from_segments` (all four time tokens converted). -/
structure Cand where
  date : String
  orig : String
  dest : String
  old_dep : String
  old_arr : String
  new_dep : String
  new_arr : String
  delta_dep : Int
  delta_arr : Int
  maxd : Int
  deriving DecidableEq, Repr

/-- A schedule-change record; unset dict keys of the source are `none`. -/
structure ScheduleChange where
  date : String
  orig : String
  dest : String
  old_dep : String
  old_arr : String
  new_dep : Option String := none
  new_arr : Option String := none
  delta_dep_min : Option Int := none
  delta_arr_min : Option Int := none
  max_delta_min : Option Int := none
  method : Option String := none
  deriving DecidableEq, Repr

/-- The candidate built from a cancelled and an active segment; `none`
when any of the four time tokens fails to convert (the `continue`). -/
def mkCand (old nw : Segment) : Option Cand :=
  match _to_minutes_any old.dep, _to_minutes_any nw.dep,
        _to_minutes_any old.arr, _to_minutes_any nw.arr with
  | some od, some nd, some oa, some na =>
    let dd := wrapDelta ((nd : Int) - od)
    let da := wrapDelta ((na : Int) - oa)
    some { date := old.date, orig := old.orig, dest := old.dest,
           old_dep := old.dep, old_arr := old.arr,
           new_dep := nw.dep, new_arr := nw.arr,
           delta_dep := dd, delta_arr := da, maxd := max dd da }
  | _, _, _, _ => none

/-- The `(date, orig, dest)` grouping key. -/
def segKey (s : Segment) : String × String × String := (s.date, s.orig, s.dest)

/-- The emptiness guard `if not key[0] or not key[1] or not key[2]`. -/
def keyOk (s : Segment) : Bool := s.date ≠ "" && s.orig ≠ "" && s.dest ≠ ""

/-- The segments collected into `key_to_old` (cancelled class). -/
def oldsOf (segs : List Segment) : List Segment :=
  segs.filter (fun s => keyOk s && CXL s.stat)

/-- The segments collected into `key_to_new` (active class; the source's
`elif` makes this conditional on not being cancelled-class). -/
def newsOf (segs : List Segment) : List Segment :=
  segs.filter (fun s => keyOk s && !CXL s.stat && OK s.stat)

/-- The keys shared by both maps.  Python iterates
`set(key_to_old) & set(key_to_new)` in an unspecified hash order; the
model fixes the first-occurrence order of the cancelled segments, which is
the only effect of the choice on any order-independent property. -/
def pairKeys (segs : List Segment) : List (String × String × String) :=
  (((oldsOf segs).map segKey).dedup).filter
    (fun k => (newsOf segs).any (fun n => segKey n = k))

/-- All candidate pairs in encounter order: keys, then the old list, then
the new list, exactly as the source's nested loops run. -/
def candidates (segs : List Segment) : List Cand :=
  (pairKeys segs).flatMap (fun k =>
    ((oldsOf segs).filter (fun o => segKey o = k)).flatMap (fun o =>
      ((newsOf segs).filter (fun n => segKey n = k)).filterMap
        (fun n => mkCand o n)))

/-- The accumulator update `if not best or cand["max_delta_min"] >
best["max_delta_min"]: best = cand`. -/
def pickStep (b : Option Cand) (c : Cand) : Option Cand :=
  match b with
  | none => some c
  | some b0 => if b0.maxd < c.maxd then some c else some b0

/-- The loop over all candidates. -/
def pickBest (l : List Cand) : Option Cand := l.foldl pickStep none

/-- The schedule-change dict built from the best candidate. -/
def candToSC (c : Cand) : ScheduleChange :=
  { date := c.date, orig := c.orig, dest := c.dest,
    old_dep := c.old_dep, old_arr := c.old_arr,
    new_dep := some c.new_dep, new_arr := some c.new_arr,
    delta_dep_min := some c.delta_dep, delta_arr_min := some c.delta_arr,
    max_delta_min := some c.maxd, method := some "pair_old_new_segments" }

/-- Source `compute_schedule_change_from_segments`. -/
def compute_schedule_change_from_segments (segs : List Segment) :
    Option ScheduleChange :=
  (pickBest (candidates segs)).map candToSC

/-- The bare SC dict returned when no segment shares the SC line's key
(`new_*`, deltas and method keys absent). -/
def scBare (dt o d odep oarr : String) : ScheduleChange :=
  { date := dt, orig := o, dest := d, old_dep := odep, old_arr := oarr }

/-- A delta of the Sabre SC path: present only when both conversions
succeed, then wrap-corrected. -/
def scDelta (nm om : Option Nat) : Option Int :=
  match nm, om with
  | some n, some o2 => some (wrapDelta ((n : Int) - (o2 : Int)))
  | _, _ => none

/-- The full SC dict built against the counterpart segment `nw`. -/
def scFromPair (dt o d odep oarr : String) (nw : Segment) : ScheduleChange :=
  let dd := scDelta (_time_token_to_minutes nw.dep) (_time_token_to_minutes odep)
  let da := scDelta (_time_token_to_minutes nw.arr) (_time_token_to_minutes oarr)
  { date := dt, orig := o, dest := d, old_dep := odep, old_arr := oarr,
    new_dep := some nw.dep, new_arr := some nw.arr,
    delta_dep_min := dd, delta_arr_min := da,
    max_delta_min := maxOpt dd da,
    method := some "sabre_sc_line" }

/-- The body of `extract_sabre_schedule_change` after the SC line matched:
`next((s for s in segs if s["date"]==dt and s["orig"]==o and
s["dest"]==d), None)` — the first key-sharing segment of any status. -/
def scResolve (text : String) (dt o d odep oarr : String) :
    Option ScheduleChange :=
  match (extract_sabre_segments text).find?
      (fun s => s.date = dt && s.orig = o && s.dest = d) with
  | none => some (scBare dt o d odep oarr)
  | some nw => some (scFromPair dt o d odep oarr nw)

/-- Source `extract_sabre_schedule_change`: first `SC` summary line, then
the first extracted Sabre segment sharing its `(date, orig, dest)` — with
no status-class requirement; without one the bare SC fields are returned,
deltas unset. -/
def extract_sabre_schedule_change (text : String) : Option ScheduleChange :=
  match scanFirst (fun prev l => if atLineStart prev then scLineAt l else none)
      none text.data with
  | none => none
  | some (g, _) =>
    scResolve text ⟨upChars g.date⟩ ⟨upChars g.orig⟩ ⟨upChars g.dest⟩
      ⟨upChars g.dep⟩ ⟨upChars g.arr⟩

/-- Source `compute_layover_minutes`: wrapped non-negative gap between the
first segment's arrival and the second segment's departure. -/
def compute_layover_minutes (segments : List Segment) : Option Int :=
  match segments with
  | s0 :: s1 :: _ =>
    match _to_minutes_any s0.arr, _to_minutes_any s1.dep with
    | some a, some d =>
      let lay : Int := (d : Int) - (a : Int)
      some (if lay < 0 then lay + 1440 else lay)
    | _, _ => none
  | _ => none

/-! ## The orchestrator -/

/-- The parse result (`out` dict of `parse_pnr_text`). -/
structure ParseResult where
  gds : String
  pnr : Option String
  ticket_number : Option String
  status_codes : List String
  endorsement_signatures : List String
  issue_date_raw : Option String
  issue_date_iso : Option String
  time_since_issue_days : Option Int
  time_until_expiration_days : Option Int
  schedule_change : Option ScheduleChange
  layover_minutes : Option Int
  segments : List Segment
  airline_signed_off : Bool
  issue_tokens : List String
  issue_label : Option String
  reason_codes : List String
  inv_ref_eligibility_minutes : Option Int
  inv_ref_eligibility_3h : Bool
  deriving DecidableEq, Repr

/-- The issue-date block of `parse_pnr_text`: raw token, ISO date,
`time_since_issue_days` and clamped `time_until_expiration_days`.  The
expiration line `issued_dt.replace(year=issued_dt.year+1)` raises
`ValueError` in Python when the date does not exist in the next year
(e.g. Feb 29), hence the `Except`. -/
def issueDateFields (text : String) (now : PyDateTime) :
    Except String (Option String × Option String × Option Int × Option Int) :=
  let issued := extract_ticket_issue_date text
  match issued.1 with
  | none => .ok (none, none, none, none)
  | some dt =>
    match replaceYear dt (dt.year + 1) with
    | none => .error "ValueError"
    | some expiry =>
      .ok (issued.2, some (isoDate dt), some (diffDays now dt),
           some (max (diffDays expiry now) 0))

/-- The assembly of the `out` dict of `parse_pnr_text` once the issue-date
block has not raised. -/
def assembleParse (text : String)
    (f : Option String × Option String × Option Int × Option Int) :
    ParseResult :=
  let gds := detect_gds text
  let segs := if gds = "sabre" then extract_sabre_segments text
              else extract_generic_segments text
  let sc := if gds = "sabre" then
      (match extract_sabre_schedule_change text with
       | some s => some s
       | none => compute_schedule_change_from_segments segs)
    else compute_schedule_change_from_segments segs
  let sigs := extract_common_signatures text
  let toksBest := detect_issue_tokens text
  let invMin := sc.bind (fun s => s.max_delta_min)
  { gds := gds,
    pnr := extract_pnr_locator text,
    ticket_number := extract_ticket_number text,
    status_codes := extract_status_codes text,
    endorsement_signatures := sigs,
    issue_date_raw := f.1,
    issue_date_iso := f.2.1,
    time_since_issue_days := f.2.2.1,
    time_until_expiration_days := f.2.2.2,
    schedule_change := sc,
    layover_minutes := compute_layover_minutes segs,
    segments := segs,
    airline_signed_off := detect_airline_signoff text sigs,
    issue_tokens := toksBest.1,
    issue_label := toksBest.2,
    reason_codes := extract_reason_codes text,
    inv_ref_eligibility_minutes := invMin,
    inv_ref_eligibility_3h :=
      match invMin with
      | some v => decide (180 ≤ v)
      | none => false }

/-- Source `parse_pnr_text`.  `datetime.now()` is passed explicitly as
`now` (the source reads the ambient wall clock at both of its uses; a
fixed override makes both reads equal, which is what the single argument
models). -/
def parse_pnr_text (text : String) (now : PyDateTime) :
    Except String ParseResult :=
  match issueDateFields text now with
  | .error e => .error e
  | .ok f => .ok (assembleParse text f)

/-! ## Generic lemmas about the model -/

/-- The code-point order is total. -/
theorem pyStrLeb_total : ∀ as bs : List Char,
    pyStrLeb as bs = true ∨ pyStrLeb bs as = true
  | [], [] => Or.inl rfl
  | [], _ :: _ => Or.inl rfl
  | _ :: _, [] => Or.inr rfl
  | a :: as, b :: bs => by
    by_cases h : a = b
    · subst h
      simpa [pyStrLeb] using pyStrLeb_total as bs
    · rcases lt_or_gt_of_ne h with hlt | hgt
      · exact Or.inl (by simp [pyStrLeb, h, hlt])
      · exact Or.inr (by simp [pyStrLeb, Ne.symm h, hgt])

/-- The code-point order is transitive. -/
theorem pyStrLeb_trans : ∀ as bs cs : List Char,
    pyStrLeb as bs = true → pyStrLeb bs cs = true → pyStrLeb as cs = true
  | [], _, _ => fun _ _ => rfl
  | _ :: _, [], _ => fun h _ => by cases h
  | _ :: _, _ :: _, [] => fun _ h => by cases h
  | a :: as, b :: bs, c :: cs => fun h1 h2 => by
    by_cases hab : a = b <;> by_cases hbc : b = c
    · subst hab; subst hbc
      simp only [pyStrLeb, if_pos rfl] at h1 h2 ⊢
      exact pyStrLeb_trans as bs cs h1 h2
    · subst hab
      simp only [pyStrLeb, if_neg hbc] at h2 ⊢
      exact h2
    · subst hbc
      simp only [pyStrLeb, if_neg hab] at h1 ⊢
      exact h1
    · have hac : a < c := by
        have h1' : a < b := by
          have := h1; simp only [pyStrLeb, if_neg hab] at this
          exact of_decide_eq_true this
        have h2' : b < c := by
          have := h2; simp only [pyStrLeb, if_neg hbc] at this
          exact of_decide_eq_true this
        exact lt_trans h1' h2'
      simp [pyStrLeb, ne_of_lt hac, hac]

/-- `sorted(set(xs))` is strictly sorted in the code-point order
(deduplicated, element text untouched). -/
theorem pySortedSet_pairwise (xs : List String) :
    (pySortedSet xs).Pairwise
      (fun a b => pyStrLeb a.data b.data = true ∧ a ≠ b) := by
  haveI : IsTotal String (fun a b => pyStrLeb a.data b.data = true) :=
    ⟨fun a b => pyStrLeb_total a.data b.data⟩
  haveI : IsTrans String (fun a b => pyStrLeb a.data b.data = true) :=
    ⟨fun a b c => pyStrLeb_trans a.data b.data c.data⟩
  have hs : (pySortedSet xs).Pairwise
      (fun a b => pyStrLeb a.data b.data = true) :=
    List.sorted_insertionSort _ _
  have hn : (pySortedSet xs).Nodup :=
    (List.perm_insertionSort _ _).nodup_iff.mpr xs.nodup_dedup
  exact hs.and hn

/-- Inversion of the orchestrator: a successful parse is the assembled
record for the computed issue-date fields. -/
theorem parse_ok_inv {text : String} {now : PyDateTime} {r : ParseResult}
    (h : parse_pnr_text text now = .ok r) :
    ∃ f, issueDateFields text now = .ok f ∧ r = assembleParse text f := by
  unfold parse_pnr_text at h
  cases hf : issueDateFields text now with
  | error e => rw [hf] at h; cases h
  | ok f => rw [hf] at h; cases h; exact ⟨f, rfl, rfl⟩

/-- The fold of `compute_schedule_change_from_segments` keeps the
first-encountered candidate of maximal `max_delta_min`. -/
theorem pickBest_go (l : List Cand) (b0 : Cand) :
    ∃ r, List.foldl pickStep (some b0) l = some r ∧
      (∀ c ∈ l, c.maxd ≤ r.maxd) ∧
      (r = b0 ∨ (b0.maxd < r.maxd ∧ ∃ pre post, l = pre ++ r :: post ∧
        ∀ c ∈ pre, c.maxd < r.maxd)) := by
  induction l generalizing b0 with
  | nil => exact ⟨b0, rfl, by simp, Or.inl rfl⟩
  | cons c cs ih =>
    by_cases h : b0.maxd < c.maxd
    · obtain ⟨r, hr, hall, hcase⟩ := ih c
      have hcr : c.maxd ≤ r.maxd := by
        rcases hcase with rfl | ⟨hlt, _⟩
        · exact le_refl _
        · exact le_of_lt hlt
      refine ⟨r, by simpa [pickStep, h] using hr, ?_, Or.inr ?_⟩
      · intro x hx
        rcases List.mem_cons.mp hx with rfl | hx
        · exact hcr
        · exact hall x hx
      · refine ⟨lt_of_lt_of_le h hcr, ?_⟩
        rcases hcase with rfl | ⟨hlt, pre, post, hsplit, hpre⟩
        · exact ⟨[], cs, rfl, by simp⟩
        · refine ⟨c :: pre, post, by simp [hsplit], ?_⟩
          intro x hx
          rcases List.mem_cons.mp hx with rfl | hx
          · exact hlt
          · exact hpre x hx
    · obtain ⟨r, hr, hall, hcase⟩ := ih b0
      have hbr : b0.maxd ≤ r.maxd := by
        rcases hcase with rfl | ⟨hlt, _⟩
        · exact le_refl _
        · exact le_of_lt hlt
      have hcb : c.maxd ≤ b0.maxd := le_of_not_lt h
      refine ⟨r, by simpa [pickStep, h] using hr, ?_, ?_⟩
      · intro x hx
        rcases List.mem_cons.mp hx with rfl | hx
        · exact le_trans hcb hbr
        · exact hall x hx
      · rcases hcase with rfl | ⟨hlt, pre, post, hsplit, hpre⟩
        · exact Or.inl rfl
        · refine Or.inr ⟨hlt, c :: pre, post, by simp [hsplit], ?_⟩
          intro x hx
          rcases List.mem_cons.mp hx with rfl | hx
          · exact lt_of_le_of_lt hcb hlt
          · exact hpre x hx

/-- `pickBest` returns a maximal candidate, the first-encountered among
those attaining the maximum. -/
theorem pickBest_spec {l : List Cand} {b : Cand} (h : pickBest l = some b) :
    (∀ c ∈ l, c.maxd ≤ b.maxd) ∧
      ∃ pre post, l = pre ++ b :: post ∧ ∀ c ∈ pre, c.maxd < b.maxd := by
  cases l with
  | nil => cases h
  | cons c cs =>
    obtain ⟨r, hr, hall, hcase⟩ := pickBest_go cs c
    have hb : b = r := by
      have : List.foldl pickStep (some c) cs = some b := h
      rw [hr] at this; exact (Option.some.injEq _ _ ▸ this).symm
    subst hb
    constructor
    · intro x hx
      rcases List.mem_cons.mp hx with rfl | hx
      · rcases hcase with rfl | ⟨hlt, _⟩
        · exact le_refl _
        · exact le_of_lt hlt
      · exact hall x hx
    · rcases hcase with rfl | ⟨hlt, pre, post, hsplit, hpre⟩
      · exact ⟨[], cs, rfl, by simp⟩
      · refine ⟨c :: pre, post, by simp [hsplit], ?_⟩
        intro x hx
        rcases List.mem_cons.mp hx with rfl | hx
        · exact hlt
        · exact hpre x hx

/-- Every candidate pair comes from a cancelled-class and an active-class
segment of the input sharing the `(date, orig, dest)` key. -/
theorem cand_mem_pair {segs : List Segment} {c : Cand}
    (hc : c ∈ candidates segs) :
    ∃ o n, o ∈ segs ∧ n ∈ segs ∧ CXL o.stat = true ∧ OK n.stat = true ∧
      o.date = n.date ∧ o.orig = n.orig ∧ o.dest = n.dest ∧
      mkCand o n = some c := by
  unfold candidates at hc
  simp only [List.mem_flatMap, List.mem_filterMap, List.mem_filter] at hc
  obtain ⟨k, -, o, ⟨⟨hoMem, hoKey⟩, n, ⟨⟨hnMem, hnKey⟩, hmk⟩⟩⟩ := hc
  have ho : o ∈ segs ∧ (keyOk o && CXL o.stat) = true := by
    simpa [oldsOf, List.mem_filter] using hoMem
  have hn : n ∈ segs ∧ (keyOk n && (!CXL n.stat && OK n.stat)) = true := by
    simpa [newsOf, List.mem_filter, Bool.and_assoc] using hnMem
  have hkey : segKey o = segKey n := by
    rw [of_decide_eq_true hoKey, of_decide_eq_true hnKey]
  have hcxl : CXL o.stat = true := by
    have h2 := ho.2; simp only [Bool.and_eq_true] at h2; exact h2.2
  have hok : OK n.stat = true := by
    have h2 := hn.2; simp only [Bool.and_eq_true] at h2; exact h2.2.2
  have hdate : o.date = n.date := congrArg Prod.fst hkey
  have horig : o.orig = n.orig := congrArg (fun p => p.2.1) hkey
  have hdest : o.dest = n.dest := congrArg (fun p => p.2.2) hkey
  exact ⟨o, n, ho.1, hn.1, hcxl, hok, hdate, horig, hdest, hmk⟩

/-- The wrap correction on a difference of two same-day minute values
lands in `[-720, 1440)`. -/
theorem wrapDelta_bound {n o : Nat} (hn : n < 1440) (ho : o < 1440) :
    -720 ≤ wrapDelta ((n : Int) - (o : Int)) ∧
      wrapDelta ((n : Int) - (o : Int)) < 1440 := by
  unfold wrapDelta
  split <;> omega

/-- A 24-hour grammar match encodes fewer than 1440 minutes. -/
theorem m24_lt {l : List Char} {h mm : Nat} (hm : m24 l = some (h, mm)) :
    h * 60 + mm < 1440 := by
  unfold m24 at hm
  match l, hm with
  | c0 :: c1 :: c2 :: c3 :: rest, hm =>
    simp only at hm
    split at hm
    · rename_i hcond
      cases hm
      omega
    · cases hm

/-- Bounded-conversion guard used as a hypothesis where a delta bound
requires the time tokens to denote real times. -/
def minutesLtDay (o : Option Nat) : Bool :=
  match o with
  | none => true
  | some v => decide (v < 1440)

theorem minutesLtDay_elim {o : Option Nat} {v : Nat}
    (h : minutesLtDay o = true) (hv : o = some v) : v < 1440 := by
  subst hv; simpa [minutesLtDay] using h

/-! ## Concrete inputs used by the witnesses and counterexamples -/

/-- A fixed clock value for concrete evaluations. -/
def demoNow : PyDateTime := { year := 2025, month := 6, day := 1, hour := 12 }

/-- The same clock one day later. -/
def demoNow2 : PyDateTime := { year := 2025, month := 6, day := 2, hour := 12 }

/-- Sabre-detected text (hint `PCC:`) whose itinerary line matches only the
generic 24-hour grammar (times without A/P), not the Sabre grammar. -/
def c1text : String := "PCC:\n1 AA 100  10JAN JFK LHR HK 1550 1750"

/-- A leap-day issue date. -/
def c2text : String := "ISSUED:29FEB24"

/-- A valid issue date, used to expose the wall-clock dependence. -/
def c3text : String := "ISSUED:28FEB24"

/-- Sabre text with an SC summary line whose only key-sharing segment is
cancelled-class (`HX1`). -/
def c5text : String :=
  "PCC:\nSC AA 100 10JAN JFKLHR HK1 0800A 0900A\n1 AA 100 10JAN JFKLHR HX1 0500A 0600A"

/-- Sabre text with an SC summary line and no segments at all. -/
def c8text : String := "PCC:\nSC AA 100 10JAN JFKLHR HK1 0800A 0900A"

/-- Sabre text with a single Sabre-grammar segment. -/
def c9text : String := "PCC:\n1 AA 100 10JAN JFKLHR HK1 0800A 0900A"

/-- A segment on the JFK–LHR 10JAN key with the given status and times. -/
def mkSeg (st dep arr : String) : Segment :=
  { idx := none, car := "AA", flt := "100", date := "10JAN", orig := "JFK",
    dest := "LHR", stat := st, dep := dep, arr := arr }

/-- Cancelled at 00:00, active at 23:59: raw delta 1439, not corrected. -/
def c4segs : List Segment := [mkSeg "HX" "0000" "0000", mkSeg "HK" "2359" "2359"]

/-- Cancelled 08:00→09:00, active 09:00→10:00: both deltas 60. -/
def c4segsW : List Segment := [mkSeg "HX" "0800" "0900", mkSeg "HK" "0900" "1000"]

/-- One cancelled segment and two active candidates tied at delta 60. -/
def c6segs : List Segment :=
  [mkSeg "HX" "0800" "0900", mkSeg "HK" "0900" "1000", mkSeg "HK2" "0900" "1000"]

/-- Two cancelled-class segments sharing the key, no active counterpart. -/
def c8segsW : List Segment := [mkSeg "HX" "0800" "0900", mkSeg "HX1" "0900" "1000"]

/-! ## Claim theorems -/

/-- C1, counterexample: on `c1text` the detected dialect is sabre, the
generic 24-hour grammar matches a segment, yet the parse result's
`segments` list is empty — the generic pass did not run. -/
theorem c1_generic_pass_suppressed_cex :
    detect_gds c1text = "sabre" ∧
    extract_generic_segments c1text ≠ [] ∧
    (parse_pnr_text c1text demoNow).toOption.map ParseResult.segments =
      some [] := by
  exact ⟨rfl, by decide, rfl⟩

/-- C1, amended: the parse result's segments are those of the Sabre grammar
alone when the detected dialect is sabre, and those of the generic grammars
alone otherwise; the generic pass is not run for sabre-detected text. -/
theorem c1_segments_dialect_exclusive (text : String) (now : PyDateTime)
    (r : ParseResult) (h : parse_pnr_text text now = .ok r) :
    r.segments = if detect_gds text = "sabre" then extract_sabre_segments text
                 else extract_generic_segments text := by
  obtain ⟨f, -, rfl⟩ := parse_ok_inv h
  rfl

/-- C1, witness for the amended theorem at `c1text`. -/
theorem c1_segments_dialect_exclusive_witness :
    ∃ r, parse_pnr_text c1text demoNow = .ok r ∧
      r.segments = (if detect_gds c1text = "sabre"
        then extract_sabre_segments c1text else extract_generic_segments c1text) :=
  ⟨_, rfl, c1_segments_dialect_exclusive c1text demoNow _ rfl⟩

/-- C2: the orchestrator is claimed never to raise, but a ticket issued on
a leap day makes `issued_dt.replace(year=issued_dt.year+1)` raise
`ValueError` (Feb 29 does not exist in the following year). -/
theorem c2_parse_raises_on_leap_issue_date :
    parse_pnr_text c2text demoNow = Except.error "ValueError" := rfl

/-- C3, counterexample: the source `parse_pnr_text(text)` takes no
current-time override — it hard-wires `datetime.now()` — so the
issue-date-relative fields vary with the ambient clock the caller cannot
fix: the same text parsed at two clock instants gives different results. -/
theorem c3_no_override_clock_dependent_cex :
    (parse_pnr_text c3text demoNow).toOption.map
      ParseResult.time_since_issue_days = some (some 459) ∧
    (parse_pnr_text c3text demoNow2).toOption.map
      ParseResult.time_since_issue_days = some (some 460) ∧
    parse_pnr_text c3text demoNow ≠ parse_pnr_text c3text demoNow2 := by
  refine ⟨rfl, rfl, fun h => ?_⟩
  have h2 : (some (some 459) : Option (Option Int)) = some (some 460) := by
    calc (some (some 459) : Option (Option Int))
        = (parse_pnr_text c3text demoNow).toOption.map
            ParseResult.time_since_issue_days := rfl
      _ = (parse_pnr_text c3text demoNow2).toOption.map
            ParseResult.time_since_issue_days := by rw [h]
      _ = some (some 460) := rfl
  exact absurd h2 (by decide)

/-- C3, amended: the parse reads the ambient wall clock (no override
parameter exists); with the clock modelled as the explicit `now` argument,
two invocations on the same text and the same clock value produce
identical parse results, issue-date-relative fields included. -/
theorem c3_parse_deterministic (t1 t2 : String) (n1 n2 : PyDateTime)
    (h1 : t1 = t2) (h2 : n1 = n2) :
    parse_pnr_text t1 n1 = parse_pnr_text t2 n2 := by
  subst h1; subst h2; rfl

/-- C3, witness at a concrete text and clock. -/
theorem c3_parse_deterministic_witness :
    parse_pnr_text c9text demoNow = parse_pnr_text c9text demoNow :=
  c3_parse_deterministic c9text c9text demoNow demoNow rfl rfl

/-- C7, counterexample: matching is case-insensitive but matched text is
not case-normalized, so the two case variants of the same reason code
survive as distinct sorted entries. -/
theorem c7_case_not_normalized_cex :
    extract_reason_codes "RF-ABC rf-abc" = ["RF-ABC", "rf-abc"] ∧
    pyUpper "rf-abc" = "RF-ABC" ∧ ("rf-abc" : String) ≠ "RF-ABC" := by
  exact ⟨by decide, by decide, by decide⟩

/-- C7, amended: every set-valued field of a successful parse is
deduplicated and strictly sorted by code point (case preserved as
matched). -/
theorem c7_set_fields_sorted (text : String) (now : PyDateTime)
    (r : ParseResult) (h : parse_pnr_text text now = .ok r) :
    r.status_codes.Pairwise (fun a b => pyStrLeb a.data b.data = true ∧ a ≠ b) ∧
    r.endorsement_signatures.Pairwise
      (fun a b => pyStrLeb a.data b.data = true ∧ a ≠ b) ∧
    r.issue_tokens.Pairwise (fun a b => pyStrLeb a.data b.data = true ∧ a ≠ b) ∧
    r.reason_codes.Pairwise
      (fun a b => pyStrLeb a.data b.data = true ∧ a ≠ b) := by
  obtain ⟨f, -, rfl⟩ := parse_ok_inv h
  exact ⟨pySortedSet_pairwise _, pySortedSet_pairwise _,
    pySortedSet_pairwise _, pySortedSet_pairwise _⟩

/-- C7, witness on a text with repeated, case-varied tokens. -/
theorem c7_set_fields_sorted_witness :
    ∃ r, parse_pnr_text "RF-ABC rf-abc RF-ABC" demoNow = .ok r ∧
      r.reason_codes.Pairwise
        (fun a b => pyStrLeb a.data b.data = true ∧ a ≠ b) :=
  ⟨_, rfl, (c7_set_fields_sorted "RF-ABC rf-abc RF-ABC" demoNow _ rfl).2.2.2⟩

/-- C9, counterexample: a Sabre-grammar segment carries no ordinal index
at all (`idx` key absent), contradicting "every extracted segment carries
an ordinal index". -/
theorem c9_sabre_segment_without_index_cex :
    (parse_pnr_text c9text demoNow).toOption.map
      (fun r => r.segments.map Segment.idx) = some [none] := rfl

/-- C9, amended: generic-grammar segments carry ordinal indices equal to
their list position (hence strictly increasing, in the order all 24-hour
matches then all 12-hour matches); Sabre-grammar segments carry no index. -/
theorem c9_generic_indices_positional :
    (∀ (text : String) (i : Nat) (h : i < (extract_generic_segments text).length),
      ((extract_generic_segments text).get ⟨i, h⟩).idx = some i) ∧
    (∀ (text : String), ∀ s ∈ extract_sabre_segments text, s.idx = none) := by
  constructor
  · intro text i h
    have h' : i < ((rows24 text ++ rows12 text).enum.map
        (fun p => rowToSeg (some p.1) p.2)).length := h
    rw [List.get_eq_getElem]
    show ((rows24 text ++ rows12 text).enum.map
        (fun p => rowToSeg (some p.1) p.2))[i].idx = some i
    rw [List.getElem_map, List.getElem_enum]
    rfl
  · intro text s hs
    unfold extract_sabre_segments at hs
    obtain ⟨r, -, rfl⟩ := List.mem_map.mp hs
    rfl

/-- C9, witness for the amended theorem at a concrete generic text. -/
theorem c9_generic_indices_positional_witness :
    0 < (extract_generic_segments "1 AA 100  10JAN JFK LHR HK 1550 1750").length ∧
    ((extract_generic_segments "1 AA 100  10JAN JFK LHR HK 1550 1750").get
      ⟨0, by decide⟩).idx = some 0 :=
  ⟨by decide, c9_generic_indices_positional.1 _ 0 (by decide)⟩

/-- C10, counterexample: `9999A` matches the 12-hour grammar and yields
6039, far outside `[0, 1440)` — no bounds validation. -/
theorem c10_range_violation_cex :
    _to_minutes_any "9999A" = some 6039 ∧ ¬(6039 < 1440) := by
  exact ⟨by decide, by decide⟩

/-- C10, amended: the normalizer returns `none` exactly when neither the
12-hour grammar (`(\d{3,4})([AP])$`) nor the 24-hour grammar
(`([01]\d|2[0-3])([0-5]\d)(?:\+1)?$`) matches the stripped upper-cased
token, and any value produced by the 24-hour branch is in `[0, 1440)`;
12-hour matches are not bounds-checked. -/
theorem c10_none_iff_and_24h_range (tok : String) :
    (_to_minutes_any tok = none ↔
      (m12 (upChars (pyStrip tok.data)) = none ∧
       m24 (upChars (pyStrip tok.data)) = none)) ∧
    (∀ v, m12 (upChars (pyStrip tok.data)) = none →
      _to_minutes_any tok = some v → v < 1440) := by
  constructor
  · unfold _to_minutes_any
    cases h12 : m12 (upChars (pyStrip tok.data)) with
    | some p => simp [h12]
    | none =>
      cases h24 : m24 (upChars (pyStrip tok.data)) with
      | some p => simp [h12, h24]
      | none => simp [h12, h24]
  · intro v h12 hv
    unfold _to_minutes_any at hv
    rw [h12] at hv
    cases h24 : m24 (upChars (pyStrip tok.data)) with
    | none => rw [h24] at hv; cases hv
    | some p =>
      obtain ⟨h, mm⟩ := p
      rw [h24] at hv
      cases hv
      exact m24_lt h24

/-- C10, witness: `1550` fails the 12-hour grammar, normalizes to 950, and
the amended range bound applies. -/
theorem c10_none_iff_and_24h_range_witness :
    _to_minutes_any "1550" = some 950 ∧ 950 < 1440 :=
  ⟨by decide, (c10_none_iff_and_24h_range "1550").2 950 (by decide) (by decide)⟩

/-! ## Inversion lemmas for the schedule-change builders -/

/-- Inversion of `mkCand`: the four conversions succeeded and produced the
wrap-corrected deltas. -/
theorem mkCand_inv {o n : Segment} {c : Cand} (h : mkCand o n = some c) :
    ∃ od nd oa na,
      _to_minutes_any o.dep = some od ∧ _to_minutes_any n.dep = some nd ∧
      _to_minutes_any o.arr = some oa ∧ _to_minutes_any n.arr = some na ∧
      c.delta_dep = wrapDelta ((nd : Int) - (od : Int)) ∧
      c.delta_arr = wrapDelta ((na : Int) - (oa : Int)) ∧
      c.old_dep = o.dep ∧ c.old_arr = o.arr ∧
      c.new_dep = n.dep ∧ c.new_arr = n.arr := by
  unfold mkCand at h
  cases e1 : _to_minutes_any o.dep with
  | none => rw [e1] at h; exact Option.noConfusion h
  | some od =>
    rw [e1] at h
    cases e2 : _to_minutes_any n.dep with
    | none => rw [e2] at h; exact Option.noConfusion h
    | some nd =>
      rw [e2] at h
      cases e3 : _to_minutes_any o.arr with
      | none => rw [e3] at h; exact Option.noConfusion h
      | some oa =>
        rw [e3] at h
        cases e4 : _to_minutes_any n.arr with
        | none => rw [e4] at h; exact Option.noConfusion h
        | some na =>
          rw [e4] at h
          rcases Option.some.inj h with rfl
          exact ⟨od, nd, oa, na, rfl, rfl, rfl, rfl, rfl, rfl, rfl, rfl, rfl, rfl⟩

/-- Inversion of `scDelta`. -/
theorem scDelta_inv {nm om : Option Nat} {d : Int} (h : scDelta nm om = some d) :
    ∃ n o2, nm = some n ∧ om = some o2 ∧
      d = wrapDelta ((n : Int) - (o2 : Int)) := by
  unfold scDelta at h
  cases nm with
  | none => exact Option.noConfusion h
  | some n =>
    cases om with
    | none => exact Option.noConfusion h
    | some o2 => exact ⟨n, o2, rfl, rfl, (Option.some.inj h).symm⟩

/-- Behaviour of the SC counterpart resolution: the result carries the SC
line's key, and its new-time fields are set exactly from the first
key-sharing segment when one exists. -/
theorem scResolve_spec {text dt o d odep oarr : String} {sc : ScheduleChange}
    (h : scResolve text dt o d odep oarr = some sc) :
    sc.date = dt ∧ sc.orig = o ∧ sc.dest = d ∧
    ((extract_sabre_segments text).find?
        (fun s => s.date = dt && s.orig = o && s.dest = d) = none →
      sc.new_dep = none ∧ sc.new_arr = none ∧ sc.delta_dep_min = none ∧
        sc.delta_arr_min = none ∧ sc.max_delta_min = none) ∧
    (∀ nw, (extract_sabre_segments text).find?
        (fun s => s.date = dt && s.orig = o && s.dest = d) = some nw →
      sc.new_dep = some nw.dep ∧ sc.new_arr = some nw.arr) := by
  unfold scResolve at h
  split at h
  · rename_i hfind
    rcases Option.some.inj h with rfl
    refine ⟨rfl, rfl, rfl, fun _ => ⟨rfl, rfl, rfl, rfl, rfl⟩, fun nw hnw => ?_⟩
    rw [hfind] at hnw
    exact Option.noConfusion hnw
  · rename_i nw0 hfind
    rcases Option.some.inj h with rfl
    refine ⟨rfl, rfl, rfl, fun hnone => ?_, fun nw hnw => ?_⟩
    · rw [hnone] at hfind
      exact Option.noConfusion hfind
    · rw [hfind] at hnw
      rcases Option.some.inj hnw with rfl
      exact ⟨rfl, rfl⟩

/-! ## Remaining claim theorems -/

/-- C4, counterexample: a cancelled 00:00 departure against an active
23:59 departure yields a reported delta of 1439 minutes, outside the
claimed interval `(-720, 720]` (the wrap rule only corrects the negative
side). -/
theorem c4_delta_out_of_claimed_range_cex :
    (compute_schedule_change_from_segments c4segs).map
      ScheduleChange.delta_dep_min = some (some 1439) ∧
    ¬((1439 : Int) ≤ 720) := by
  exact ⟨rfl, by decide⟩

/-- C4, amended: when the time tokens of the paired segments (resp. of the
SC line and its counterpart) all normalize to same-day minute values,
every reported delta lies in `[-720, 1440)`: only deltas strictly below
−720 gain 1440, so −720 itself and values in `(720, 1440)` are reported
unchanged. -/
theorem c4_delta_bounds :
    (∀ segs sc,
      compute_schedule_change_from_segments segs = some sc →
      minutesLtDay (_to_minutes_any sc.old_dep) = true →
      minutesLtDay (_to_minutes_any sc.old_arr) = true →
      minutesLtDay (sc.new_dep.bind _to_minutes_any) = true →
      minutesLtDay (sc.new_arr.bind _to_minutes_any) = true →
      ∀ d, sc.delta_dep_min = some d ∨ sc.delta_arr_min = some d →
        -720 ≤ d ∧ d < 1440) ∧
    (∀ text sc,
      extract_sabre_schedule_change text = some sc →
      minutesLtDay (_time_token_to_minutes sc.old_dep) = true →
      minutesLtDay (_time_token_to_minutes sc.old_arr) = true →
      minutesLtDay (sc.new_dep.bind _time_token_to_minutes) = true →
      minutesLtDay (sc.new_arr.bind _time_token_to_minutes) = true →
      ∀ d, sc.delta_dep_min = some d ∨ sc.delta_arr_min = some d →
        -720 ≤ d ∧ d < 1440) := by
  constructor
  · intro segs sc hcomp h1 h2 h3 h4 d hd
    unfold compute_schedule_change_from_segments at hcomp
    obtain ⟨b, hb, hsc⟩ := Option.map_eq_some'.mp hcomp
    obtain ⟨-, pre, post, hsplit, -⟩ := pickBest_spec hb
    have hbmem : b ∈ candidates segs := by
      rw [hsplit]; exact List.mem_append_right _ (List.mem_cons_self _ _)
    obtain ⟨o, n, hoMem, hnMem, -, -, -, -, -, hmk⟩ := cand_mem_pair hbmem
    obtain ⟨od, nd, oa, na, e1, e2, e3, e4, hdd, hda, tod, toa, tnd, tna⟩ :=
      mkCand_inv hmk
    subst hsc
    have h1' : minutesLtDay (_to_minutes_any b.old_dep) = true := h1
    have h2' : minutesLtDay (_to_minutes_any b.old_arr) = true := h2
    have h3' : minutesLtDay (_to_minutes_any b.new_dep) = true := h3
    have h4' : minutesLtDay (_to_minutes_any b.new_arr) = true := h4
    rw [tod] at h1'
    rw [toa] at h2'
    rw [tnd] at h3'
    rw [tna] at h4'
    have hod := minutesLtDay_elim h1' e1
    have hnd := minutesLtDay_elim h3' e2
    have hoa := minutesLtDay_elim h2' e3
    have hna := minutesLtDay_elim h4' e4
    rcases hd with hd | hd
    · have : b.delta_dep = d := Option.some.inj hd
      rw [← this, hdd]
      exact wrapDelta_bound hnd hod
    · have : b.delta_arr = d := Option.some.inj hd
      rw [← this, hda]
      exact wrapDelta_bound hna hoa
  · intro text sc h h1 h2 h3 h4 d hd
    unfold extract_sabre_schedule_change at h
    split at h
    · exact Option.noConfusion h
    · unfold scResolve at h
      split at h
      · rcases Option.some.inj h with rfl
        rcases hd with hd | hd <;> exact Option.noConfusion hd
      · rename_i nw hfind
        rcases Option.some.inj h with rfl
        rcases hd with hd | hd
        · obtain ⟨n, o2, en, eo, rfl⟩ := scDelta_inv hd
          have hn := minutesLtDay_elim h3 en
          have ho := minutesLtDay_elim h1 eo
          exact wrapDelta_bound hn ho
        · obtain ⟨n, o2, en, eo, rfl⟩ := scDelta_inv hd
          have hn := minutesLtDay_elim h4 en
          have ho := minutesLtDay_elim h2 eo
          exact wrapDelta_bound hn ho

/-- C4, witness for the amended bound on a pair with delta 60. -/
theorem c4_delta_bounds_witness :
    ∃ sc, compute_schedule_change_from_segments c4segsW = some sc ∧
      (-720 ≤ (60 : Int) ∧ (60 : Int) < 1440) :=
  ⟨_, rfl, c4_delta_bounds.1 c4segsW _ rfl (by decide) (by decide) (by decide)
    (by decide) 60 (Or.inl rfl)⟩

/-- C5, counterexample: on `c5text` the only key-sharing segment is
cancelled-class (`HX1`, no active-class segment exists at all), yet the SC
result takes its times as the new times and reports deltas, instead of the
claimed bare fields with deltas unset. -/
theorem c5_cancelled_counterpart_cex :
    (extract_sabre_schedule_change c5text).map
      (fun sc => (sc.new_dep, sc.delta_dep_min, sc.delta_arr_min)) =
      some (some "0500A", some (-180), some (-180)) ∧
    (∀ s ∈ extract_sabre_segments c5text, OK s.stat = false) := by
  exact ⟨rfl, by decide⟩

/-- C5, amended: the counterpart used for the SC line's delta computation
is the first extracted Sabre segment sharing the SC line's
`(date, origin, destination)`, of any status class; only when no segment
shares the key does the result carry the bare SC fields with deltas and
new times unset. -/
theorem c5_sc_counterpart_any_status (text : String) (sc : ScheduleChange)
    (h : extract_sabre_schedule_change text = some sc) :
    ((extract_sabre_segments text).find?
        (fun s => s.date = sc.date && s.orig = sc.orig && s.dest = sc.dest) =
          none →
      sc.new_dep = none ∧ sc.new_arr = none ∧ sc.delta_dep_min = none ∧
        sc.delta_arr_min = none ∧ sc.max_delta_min = none) ∧
    (∀ nw, (extract_sabre_segments text).find?
        (fun s => s.date = sc.date && s.orig = sc.orig && s.dest = sc.dest) =
          some nw →
      sc.new_dep = some nw.dep ∧ sc.new_arr = some nw.arr) := by
  unfold extract_sabre_schedule_change at h
  split at h
  · exact Option.noConfusion h
  · obtain ⟨hdate, horig, hdest, hnone, hsome⟩ := scResolve_spec h
    constructor
    · intro hfind
      simp only [hdate, horig, hdest] at hfind
      exact hnone hfind
    · intro nw hfind
      simp only [hdate, horig, hdest] at hfind
      exact hsome nw hfind

/-- C5, witness at `c5text`: the (cancelled-class) key-sharing segment's
times are taken as the new times. -/
theorem c5_sc_counterpart_any_status_witness :
    ∃ sc, extract_sabre_schedule_change c5text = some sc ∧
      ∃ nw, (extract_sabre_segments c5text).find?
          (fun s => s.date = sc.date && s.orig = sc.orig && s.dest = sc.dest) =
            some nw ∧
        sc.new_dep = some nw.dep ∧ sc.new_arr = some nw.arr :=
  ⟨_, rfl, _, rfl, (c5_sc_counterpart_any_status c5text _ rfl).2 _ rfl⟩

/-- C6: the reported pair is a candidate of maximal `max_delta_min`, and
among candidates tied at the maximum the first-encountered one is kept
(all earlier candidates are strictly smaller). -/
theorem c6_max_delta_first_encounter (segs : List Segment)
    (sc : ScheduleChange)
    (h : compute_schedule_change_from_segments segs = some sc) :
    ∃ b pre post, candidates segs = pre ++ b :: post ∧ sc = candToSC b ∧
      (∀ c ∈ candidates segs, c.maxd ≤ b.maxd) ∧
      (∀ c ∈ pre, c.maxd < b.maxd) := by
  unfold compute_schedule_change_from_segments at h
  obtain ⟨b, hb, hsc⟩ := Option.map_eq_some'.mp h
  obtain ⟨hmax, pre, post, hsplit, hpre⟩ := pickBest_spec hb
  exact ⟨b, pre, post, hsplit, hsc.symm, hmax, hpre⟩

/-- C6, witness on two candidates tied at delta 60: the first is kept. -/
theorem c6_max_delta_first_encounter_witness :
    ∃ sc, compute_schedule_change_from_segments c6segs = some sc ∧
      ∃ b pre post, candidates c6segs = pre ++ b :: post ∧ sc = candToSC b ∧
        (∀ c ∈ candidates c6segs, c.maxd ≤ b.maxd) ∧
        (∀ c ∈ pre, c.maxd < b.maxd) :=
  ⟨_, rfl, c6_max_delta_first_encounter c6segs _ rfl⟩

/-- C8, counterexample: a Sabre SC summary line with no segments at all
populates `schedule_change` although no cancelled-class/active-class pair
(indeed no segment) exists. -/
theorem c8_sc_without_pair_cex :
    (parse_pnr_text c8text demoNow).toOption.map
      (fun r => (r.schedule_change, r.segments)) =
      some (some (scBare "10JAN" "JFK" "LHR" "0800A" "0900A"), []) := rfl

/-- C8, amended: the segment-pair computation populates a schedule change
only when a cancelled-class and an active-class segment share a key (and
in particular all-cancelled inputs yield none); the Sabre SC-line path can
additionally populate it without any such pair. -/
theorem c8_pair_requires_classes :
    (∀ segs sc, compute_schedule_change_from_segments segs = some sc →
      ∃ o n, o ∈ segs ∧ n ∈ segs ∧ CXL o.stat = true ∧ OK n.stat = true ∧
        o.date = n.date ∧ o.orig = n.orig ∧ o.dest = n.dest) ∧
    (∀ segs, (∀ s ∈ segs, OK s.stat = false) →
      compute_schedule_change_from_segments segs = none) := by
  constructor
  · intro segs sc h
    unfold compute_schedule_change_from_segments at h
    obtain ⟨b, hb, -⟩ := Option.map_eq_some'.mp h
    obtain ⟨-, pre, post, hsplit, -⟩ := pickBest_spec hb
    have hbmem : b ∈ candidates segs := by
      rw [hsplit]; exact List.mem_append_right _ (List.mem_cons_self _ _)
    obtain ⟨o, n, ho, hn, hcxl, hok, hdate, horig, hdest, -⟩ :=
      cand_mem_pair hbmem
    exact ⟨o, n, ho, hn, hcxl, hok, hdate, horig, hdest⟩
  · intro segs hall
    have hnews : newsOf segs = [] := by
      refine List.filter_eq_nil_iff.mpr ?_
      intro s hs
      simp [keyOk, hall s hs]
    have hcand : candidates segs = [] := by
      unfold candidates pairKeys
      rw [hnews]
      simp
    unfold compute_schedule_change_from_segments
    rw [hcand]
    rfl

/-- C8, witness: two cancelled-class segments sharing a key, no active
counterpart — schedule change unset. -/
theorem c8_pair_requires_classes_witness :
    compute_schedule_change_from_segments c8segsW = none :=
  c8_pair_requires_classes.2 c8segsW (by decide)

end AgentSupportRouter
